import Mathlib

/-!
Verification of the training-tracker session model against its source
(`src/src/App.tsx`).  The data model, template catalog, lifecycle operations
and aggregation functions are embedded shallowly: JS numbers are modelled as
`ℚ`, ISO date strings compared via `Date.getTime()` are modelled as `Int`
timestamps, nullable fields as `Option`, and arrays as `List`.
-/

namespace TrainingTracker

/-- `SetEntry` from the source: one logged set; `weightKg` and `reps` are
independently nullable. -/
structure SetEntry where
  id : String
  weightKg : Option ℚ
  reps : Option ℚ
  notes : Option String := none
  createdAt : String
  deriving DecidableEq

/-- `Exercise` from the source. -/
structure Exercise where
  id : String
  name : String
  variation : Option String := none
  sets : List SetEntry
  targetRepHint : Option String := none
  order : Nat
  deriving DecidableEq

/-- `TrainingType` from the source. -/
inductive TrainingType where
  | push | pull | legs_core | murph | dashboard
  | running_type   -- source literal 'run'
  deriving DecidableEq

/-- `murphData` block of a session. -/
structure MurphData where
  rounds : Nat
  totalTime : Option Nat := none
  isLite : Option Bool := none
  weightVest : Option Bool := none
  weightVestKg : Option ℚ := none
  deriving DecidableEq

/-- `runData` block of a session. -/
structure RunData where
  distance : ℚ
  duration : ℚ
  deriving DecidableEq

/-- `totals` block of a session. -/
structure Totals where
  volumeKg : Option ℚ := none
  setCount : Option Nat := none
  deriving DecidableEq

/-- `TrainingSession` from the source.  `date`, `startedAt`, `endedAt` are
ISO strings in the source, always compared through `new Date(x).getTime()`;
they are modelled by that time value. -/
structure TrainingSession where
  id : String
  type : TrainingType
  date : Int
  completed : Bool
  startedAt : Int
  endedAt : Option Int := none
  exercises : List Exercise
  notes : Option String := none
  location : Option String := none
  totals : Option Totals := none
  murphData : Option MurphData := none
  runData : Option RunData := none
  deriving DecidableEq

/-- `DB` from the source (the persisted Store). -/
structure DB where
  version : Nat
  sessions : List TrainingSession
  deriving DecidableEq

/-- `calcVolume` from the source: nested `forEach` accumulation, adding
`weightKg * reps` for each set where both are non-null. -/
def calcVolume (session : TrainingSession) : ℚ :=
  session.exercises.foldl (fun total ex =>
    ex.sets.foldl (fun t s =>
      match s.weightKg, s.reps with
      | some w, some r => t + w * r
      | _, _ => t) total) 0

/-- Contribution of a single set to the volume, as the spec words it:
`weightKg * reps` where both are non-null, else 0. -/
def setContribution (s : SetEntry) : ℚ :=
  match s.weightKg, s.reps with
  | some w, some r => w * r
  | _, _ => 0

/-- `volumeOf` as the spec words it: Σ over exercises, over sets, of
`weightKg * reps` where both are non-null; else contributes 0. -/
def volumeSpec (session : TrainingSession) : ℚ :=
  (session.exercises.map (fun ex => (ex.sets.map setContribution).sum)).sum

/-- An all-null example session used to witness C1. -/
def c1Session : TrainingSession :=
  { id := "s1", type := .push, date := 0, completed := false, startedAt := 0,
    exercises :=
      [ { id := "e1", name := "Bankdrücken", sets :=
            [ { id := "t1", weightKg := none, reps := none,
                createdAt := "x" } ], order := 0 } ] }

/-- Total set count, as the source computes it in `saveActiveSession`:
`exercises.reduce((sum, ex) => sum + ex.sets.length, 0)`. -/
def totalSetCount (s : TrainingSession) : Nat :=
  s.exercises.foldl (fun sum ex => sum + ex.sets.length) 0

/-- The session produced by `saveActiveSession` in the source: a copy of the
active session with `completed := true`, `endedAt := now`, and — only for
non-murph, non-run types — freshly computed `totals`. -/
def completeSession (active : TrainingSession) (now : Int) : TrainingSession :=
  if active.type ≠ .murph ∧ active.type ≠ .running_type then
    { active with
      completed := true
      endedAt := some now
      totals := some { volumeKg := some (calcVolume active)
                       setCount := some (totalSetCount active) } }
  else
    { active with completed := true, endedAt := some now }

/-- `saveActiveSession`'s store update: the completed session replaces any
stored session with the same id and is appended at the end. -/
def saveActiveSession (db : DB) (active : TrainingSession) (now : Int) : DB :=
  { db with sessions := (db.sessions.filter fun s => decide (s.id ≠ (completeSession active now).id)) ++ [completeSession active now] }

/-- A small in-progress push session used to witness C2. -/
def c2Active : TrainingSession :=
  { id := "a1", type := .push, date := 10, completed := false, startedAt := 10,
    exercises :=
      [ { id := "e1", name := "Dips", sets :=
            [ { id := "t1", weightKg := some 80, reps := some 5,
                createdAt := "c1" },
              { id := "t2", weightKg := none, reps := some 3,
                createdAt := "c2" } ], order := 0 } ] }

/-- `importBackup`'s merge branch from the source: the current sessions are
kept and the imported ones are appended when their id is not among the
current ids (`existingIds.has`). -/
def mergeImport (cur imp : DB) : DB :=
  { imp with sessions := cur.sessions ++ (imp.sessions.filter fun s => decide (s.id ∉ cur.sessions.map (fun t => t.id))) }

/-- A stored session used by the C5 witness; its id collides with the
imported one. -/
def c5Stored : TrainingSession :=
  { id := "dup", type := .pull, date := 5, completed := true, startedAt := 5,
    exercises := [] }

/-- The imported session of the C5 witness: same id, different data. -/
def c5Imported : TrainingSession :=
  { id := "dup", type := .legs_core, date := 9, completed := true,
    startedAt := 9, exercises := [] }

/-- The match predicate of `findLastSet`:
`ex.name === exerciseName && ex.variation === variation` (in JS, two
`undefined` variations compare equal, modelled by `Option` equality). -/
def matchesExercise (name : String) (variation : Option String)
    (ex : Exercise) : Bool :=
  ex.name == name && ex.variation == variation

/-- The sort comparator of `findLastSet`:
`(a, b) => new Date(b.date).getTime() - new Date(a.date).getTime()`, i.e.
`a` comes first when its date is at least `b`'s (descending by date). -/
def laterDate (a b : TrainingSession) : Prop := b.date ≤ a.date

instance : DecidableRel laterDate := fun a b =>
  inferInstanceAs (Decidable (b.date ≤ a.date))

instance : IsTotal TrainingSession laterDate :=
  ⟨fun a b => (le_total b.date a.date).imp id id⟩

instance : IsTrans TrainingSession laterDate :=
  ⟨fun _ _ _ hab hbc => le_trans hbc hab⟩

/-- Reverse-chronological sort used by `findLastSet` (JS `Array.sort` with
the date comparator, modelled by a stable insertion sort). -/
def sortByDateDesc (l : List TrainingSession) : List TrainingSession :=
  List.insertionSort laterDate l

/-- The `for`-loop body of `findLastSet` over the sorted session list:
return the matching exercise's set at `setIndex` when present, else its last
set when it has any, else continue with the remaining sessions. -/
def scanForLastSet (name : String) (variation : Option String)
    (setIndex : Nat) : List TrainingSession → Option SetEntry
  | [] => none
  | session :: rest =>
    match session.exercises.find? (matchesExercise name variation) with
    | some ex =>
      match ex.sets[setIndex]? with
      | some st => some st
      | none =>
        match ex.sets.getLast? with
        | some st => some st
        | none => scanForLastSet name variation setIndex rest
    | none => scanForLastSet name variation setIndex rest

/-- `findLastSet` from the source: filter the stored sessions to completed
ones of the active tab's type excluding the active session's id, sort them
by date descending, and scan them. -/
def findLastSet (db : DB) (activeTab : TrainingType) (activeId : Option String)
    (name : String) (variation : Option String) (setIndex : Nat) :
    Option SetEntry :=
  scanForLastSet name variation setIndex
    (sortByDateDesc (db.sessions.filter fun s => decide (s.type = activeTab ∧ s.completed = true ∧ activeId ≠ some s.id)))

/-- Completed pull session holding a 5-set Klimmzüge exercise, for the C3
witness scenario. -/
def c3Session : TrainingSession :=
  { id := "p1", type := .pull, date := 100, completed := true,
    startedAt := 100,
    exercises :=
      [ { id := "e1", name := "Klimmzüge", sets :=
            [ { id := "k1", weightKg := some 10, reps := some 8, createdAt := "c1" },
              { id := "k2", weightKg := some 10, reps := some 7, createdAt := "c2" },
              { id := "k3", weightKg := some 10, reps := some 6, createdAt := "c3" },
              { id := "k4", weightKg := some 10, reps := some 5, createdAt := "c4" },
              { id := "k5", weightKg := some 10, reps := some 4, createdAt := "c5" } ],
          order := 0 } ] }

/-- The characters JS `String.prototype.trim` strips: WhiteSpace (TAB, VT,
FF, SP, NBSP, ZWNBSP and the Unicode Zs category) and LineTerminator (LF,
CR, LS, PS). -/
def SPACE_CHARS : List Char :=
  ['\t', '\n', '\u000B', '\u000C', '\r', ' ', '\u00A0', '\u1680',
   '\u2000', '\u2001', '\u2002', '\u2003', '\u2004', '\u2005', '\u2006',
   '\u2007', '\u2008', '\u2009', '\u200A', '\u2028', '\u2029', '\u202F',
   '\u205F', '\u3000', '\uFEFF']

/-- JS `String.prototype.trim` whitespace test. -/
def isSpaceChar (c : Char) : Bool := decide (c ∈ SPACE_CHARS)

/-- JS `value.trim()` on the underlying character list. -/
def trimChars (l : List Char) : List Char :=
  ((l.dropWhile isSpaceChar).reverse.dropWhile isSpaceChar).reverse

/-- JS `value.trim()`. -/
def jsTrim (s : String) : String := String.mk (trimChars s.data)

/-- A JS number as `parseFloat` can produce it on non-`NaN` input: a finite
value or a signed infinity (from the `Infinity` production). -/
inductive JSNum where
  | finite (q : ℚ)
  | posInf
  | negInf
  deriving DecidableEq

/-- JS unary minus on a parsed number. -/
def JSNum.neg : JSNum → JSNum
  | finite q => finite (-q)
  | posInf => negInf
  | negInf => posInf

/-- Numeric value of a decimal digit character. -/
def digitVal (c : Char) : Nat := c.toNat - Char.toNat '0'

/-- Value of a digit string. -/
def digitsVal (l : List Char) : Nat :=
  l.foldl (fun acc c => 10 * acc + digitVal c) 0

/-- Value of a fractional digit string. -/
def fracVal (l : List Char) : ℚ :=
  (digitsVal l : ℚ) / (10 : ℚ) ^ l.length

/-- The exponent contributed by a valid `ExponentPart` prefix (`e`/`E`,
optional sign, digits) of the residue; a malformed exponent contributes
nothing, as in `parseFloat("1e")` = 1. -/
def parseExponent (l : List Char) : Int :=
  match l with
  | [] => 0
  | c :: r =>
    if c = 'e' ∨ c = 'E' then
      match r with
      | '-' :: r2 => if (r2.takeWhile Char.isDigit).isEmpty then 0 else -(digitsVal (r2.takeWhile Char.isDigit) : Int)
      | '+' :: r2 => if (r2.takeWhile Char.isDigit).isEmpty then 0 else (digitsVal (r2.takeWhile Char.isDigit) : Int)
      | r2 => if (r2.takeWhile Char.isDigit).isEmpty then 0 else (digitsVal (r2.takeWhile Char.isDigit) : Int)
    else 0

/-- Longest-prefix unsigned parse of `parseFloat`'s `StrUnsignedDecimalLiteral`
grammar: the literal `Infinity`, or integer digits with an optional point,
fractional digits and exponent (`digits [. digits] [exp]` / `. digits [exp]`);
`none` when no digits occur on either side of the point. -/
def parseUnsigned (l : List Char) : Option JSNum :=
  if l.take 8 = "Infinity".data then some JSNum.posInf
  else if (l.dropWhile Char.isDigit).head? = some '.' then
    if (l.takeWhile Char.isDigit).isEmpty && (((l.dropWhile Char.isDigit).tail).takeWhile Char.isDigit).isEmpty then none
    else some (JSNum.finite (((digitsVal (l.takeWhile Char.isDigit) : ℚ) + fracVal (((l.dropWhile Char.isDigit).tail).takeWhile Char.isDigit)) * (10 : ℚ) ^ parseExponent (((l.dropWhile Char.isDigit).tail).dropWhile Char.isDigit)))
  else if (l.takeWhile Char.isDigit).isEmpty then none
  else some (JSNum.finite ((digitsVal (l.takeWhile Char.isDigit) : ℚ) * (10 : ℚ) ^ parseExponent (l.dropWhile Char.isDigit)))

/-- Model of JS `parseFloat`: an optional sign followed by the longest
`StrUnsignedDecimalLiteral` prefix (`Infinity` or a decimal literal with
optional fraction and exponent); trailing residue is ignored and an input
with no such prefix is `NaN` (here `none`). -/
def jsParseFloat (s : String) : Option JSNum :=
  match s.data with
  | [] => none
  | c :: r =>
    if c = '-' then (parseUnsigned r).map JSNum.neg
    else if c = '+' then parseUnsigned r
    else parseUnsigned (c :: r)

/-- JS `value.replace(',', '.')` with a string pattern: only the first
comma is replaced. -/
def replaceFirstCommaDot : List Char → List Char
  | [] => []
  | c :: r => if c = ',' then '.' :: r else c :: replaceFirstCommaDot r

/-- `parseNumber` from the source: empty/whitespace input is null, the
first comma of the trimmed input becomes a dot, and the result is
`parseFloat` of that, with `NaN` mapped to null. -/
def parseNumber (value : String) : Option JSNum :=
  if jsTrim value = "" then none
  else jsParseFloat (String.mk (replaceFirstCommaDot (jsTrim value).data))

/-- Modelled from the claim's words, for comparison with the source's
`parseNumber`: strip any non-numeric residue (everything but digits, dots
and commas) before parsing. -/
def parseNumberStripSpec (value : String) : Option JSNum :=
  let kept := (jsTrim value).data.filter (fun c => c.isDigit || c = '.' || c = ',')
  if kept.isEmpty then none
  else jsParseFloat (String.mk (replaceFirstCommaDot kept))

/-- A character that can begin a JS number (after the comma-to-dot
replacement a comma can, too; `I` begins the `Infinity` production). -/
def canStartNumber (c : Char) : Bool :=
  c.isDigit || c = '.' || c = ',' || c = '-' || c = '+' || c = 'I'

/-- A character that, after a digit string, extends or alters the parsed
number: further digits, a decimal point, a comma (which the replacement
turns into a point), or an exponent marker. -/
def canExtendNumber (c : Char) : Bool :=
  c.isDigit || c = '.' || c = ',' || c = 'e' || c = 'E'

/-- The 25-minute Murph Lite cap in seconds. -/
def MURPH_LITE_TIME : Nat := 25 * 60

/-- State of the MurphView timer: the component's `elapsedTime` and
`isRunning`, and the session's persisted `murphData.totalTime` (written by
`updateSession` inside the tick). -/
structure MurphTimer where
  elapsed : Nat
  running : Bool
  savedTotalTime : Option Nat
  deriving DecidableEq

/-- One one-second interval tick of the MurphView effect: when running,
`newTime = prev + 1`; in Lite mode a `newTime` at or past the cap clamps
`elapsed` to the cap and stops the timer WITHOUT persisting (the early
return precedes `updateSession`); otherwise both `elapsed` and the
persisted `totalTime` become `newTime`.  No tick fires while stopped. -/
def murphTick (isLite : Bool) (st : MurphTimer) : MurphTimer :=
  if st.running then
    if isLite && decide (MURPH_LITE_TIME ≤ st.elapsed + 1) then
      { st with elapsed := MURPH_LITE_TIME, running := false }
    else
      { st with elapsed := st.elapsed + 1, savedTotalTime := some (st.elapsed + 1) }
  else st

/-- State of an exercise's set array together with the pending undo closure
held by the snackbar (`showSnackbar(msg, undo)` stores it, a 5-second
`setTimeout` clears it). The closure captures the removed set and its
index. -/
structure SetUndoState where
  sets : List SetEntry
  pending : Option (Nat × SetEntry)
  deriving DecidableEq

/-- `deleteSet(setIndex)` from ExerciseCard: reads `deletedSet =
exercise.sets[setIndex]`, removes that index (the source writes the removal
as `sets.filter((_, i) => i !== setIndex)`, which drops exactly position
`setIndex`), and hands the snackbar an undo closure re-inserting
`deletedSet` at `setIndex`. -/
def deleteSetOp (st : SetUndoState) (i : Nat) : SetUndoState :=
  { sets := st.sets.eraseIdx i
    pending := (st.sets[i]?).map (fun x => (i, x)) }

/-- Expiry of the 5-second undo window: `setTimeout(() =>
setUndoAction(null), 5000)`. -/
def undoExpire (st : SetUndoState) : SetUndoState := { st with pending := none }

/-- Pressing the snackbar's Undo button: run the stored closure
(`[...sets.slice(0, setIndex), deletedSet, ...sets.slice(setIndex)]`) and
clear it; with no stored closure the button does not exist and nothing
happens. -/
def undoPress (st : SetUndoState) : SetUndoState :=
  match st.pending with
  | some (i, x) =>
      { sets := (st.sets.take i) ++ [x] ++ (st.sets.drop i), pending := none }
  | none => st

/-- A three-set array used to witness C8 at index 1. -/
def c8Sets : List SetEntry :=
  [ { id := "u1", weightKg := some 60, reps := some 8, createdAt := "t1" },
    { id := "u2", weightKg := some 65, reps := some 6, createdAt := "t2" },
    { id := "u3", weightKg := none, reps := none, createdAt := "t3" } ]

/-- A template entry (`Omit<Exercise, 'id'>` in the source; the literal
`sets: []` of every entry is replaced at instantiation). -/
structure TemplateEntry where
  name : String
  variation : Option String := none
  order : Nat
  deriving DecidableEq

/-- `PUSH_TEMPLATE` from the source. -/
def PUSH_TEMPLATE : List TemplateEntry :=
  [ { name := "Overhead Press", order := 0 },
    { name := "Bankdrücken", variation := some "Langhantel", order := 1 },
    { name := "Schrägbankdrücken", variation := some "Langhantel", order := 2 },
    { name := "Military Press", order := 3 },
    { name := "SZ-Frontheben", order := 4 },
    { name := "Dips", order := 5 },
    { name := "SZ-Trizepsdrücken", order := 6 } ]

/-- `PULL_TEMPLATE` from the source. -/
def PULL_TEMPLATE : List TemplateEntry :=
  [ { name := "Klimmzüge", order := 0 },
    { name := "Schweres Rudern", order := 1 },
    { name := "Kreuzheben", order := 2 },
    { name := "Rudern hinten", order := 3 },
    { name := "Bizepscurls", variation := some "SZ-Stange", order := 4 },
    { name := "Shrugs / Nacken", order := 5 } ]

/-- `LEGS_TEMPLATE` from the source. -/
def LEGS_TEMPLATE : List TemplateEntry :=
  [ { name := "Beinpresse", order := 0 },
    { name := "Beinbeuger", order := 1 },
    { name := "Bauch (Schrägbank)", order := 2 },
    { name := "Waden stehend / sitzend", order := 3 },
    { name := "Bauch, quer", order := 4 },
    { name := "Ausfallschritte", order := 5 } ]

/-- The heavy-lift name table of `getDefaultSetsForExercise`. -/
def HEAVY_LIFTS : List String := ["Bankdrücken", "Klimmzüge", "Kreuzheben"]

/-- The 5-vs-3 default set count rule of `getDefaultSetsForExercise`. -/
def defaultSetCount (name : String) : Nat :=
  if name ∈ HEAVY_LIFTS then 5 else 3

/-- `getDefaultSetsForExercise` from the source; `generateId` and `new
Date().toISOString()` are parameters. -/
def getDefaultSetsForExercise (gen : Nat → String) (createdAt : String)
    (name : String) : List SetEntry :=
  (List.range (defaultSetCount name)).map fun k =>
    { id := gen k, weightKg := none, reps := none, createdAt := createdAt }

/-- The strength branch of `createNewSession`: a fresh incomplete session
whose exercises are the template entries instantiated with fresh ids and
default set skeletons. -/
def createStrengthSession (t : TrainingType) (template : List TemplateEntry)
    (sid : String) (exId : Nat → String) (setId : Nat → Nat → String)
    (now : Int) (createdAt : String) : TrainingSession :=
  { id := sid, type := t, date := now, completed := false, startedAt := now,
    exercises := template.enum.map fun p =>
      { id := exId p.1, name := p.2.name, variation := p.2.variation,
        sets := getDefaultSetsForExercise (setId p.1) createdAt p.2.name,
        order := p.2.order } }

/-- Helper for `jsMapIdx`: map with an explicit running index. -/
def mapIdxFrom {α β : Type} (f : Nat → α → β) : Nat → List α → List β
  | _, [] => []
  | j, x :: xs => f j x :: mapIdxFrom f (j + 1) xs

/-- JS `Array.prototype.map((x, i) => ...)`. -/
def jsMapIdx {α β : Type} (f : Nat → α → β) (l : List α) : List β :=
  mapIdxFrom f 0 l

/-- `updateExercise` plumbing shared by SetRow and ExerciseCard: replace
the exercise at `exIndex` by `f` of it (`exercises.map((ex, i) => i ===
exIndex ? f(ex) : ex)`). -/
def updateExerciseAt (s : TrainingSession) (exIndex : Nat)
    (f : Exercise → Exercise) : TrainingSession :=
  { s with exercises := jsMapIdx (fun j ex => if j = exIndex then f ex else ex) s.exercises }

/-- `updateSetWeight` from SetRow (the parsed weight written into set
`setIndex`). -/
def setWeightAt (s : TrainingSession) (exIndex setIndex : Nat)
    (w : Option ℚ) : TrainingSession :=
  updateExerciseAt s exIndex fun ex =>
    { ex with sets := jsMapIdx (fun j st => if j = setIndex then { st with weightKg := w } else st) ex.sets }

/-- `updateSetReps` from SetRow. -/
def setRepsAt (s : TrainingSession) (exIndex setIndex : Nat)
    (r : Option ℚ) : TrainingSession :=
  updateExerciseAt s exIndex fun ex =>
    { ex with sets := jsMapIdx (fun j st => if j = setIndex then { st with reps := r } else st) ex.sets }

/-- The C4 scenario's freshly created push session. -/
def c4Session : TrainingSession :=
  createStrengthSession .push PUSH_TEMPLATE "s4"
    (fun i => "e" ++ toString i) (fun i k => "t" ++ toString i ++ "x" ++ toString k)
    0 "c4"

/-- The C4 scenario's mutation: Bankdrücken (exercise index 1) set 1 gets
weight 80 and reps 5. -/
def c4Mutated : TrainingSession :=
  setRepsAt (setWeightAt c4Session 1 0 (some 80)) 1 0 (some 5)

/-- The C4 scenario finalized. -/
def c4Final : TrainingSession := completeSession c4Mutated 7

/-- A fresh null-valued set (`{ id, weightKg: null, reps: null, createdAt }`). -/
def mkNullSet (id createdAt : String) : SetEntry :=
  { id := id, weightKg := none, reps := none, createdAt := createdAt }

/-- The murph branch of `createNewSession`: empty exercises and
`murphData = { rounds: 0 }`. -/
def createMurphSession (sid : String) (now : Int) : TrainingSession :=
  { id := sid, type := .murph, date := now, completed := false,
    startedAt := now, exercises := [], murphData := some { rounds := 0 } }

/-- The run branch of `createNewSession`: empty exercises and
`runData = { distance: 0, duration: 0 }`. -/
def createRunSession (sid : String) (now : Int) : TrainingSession :=
  { id := sid, type := .running_type, date := now, completed := false,
    startedAt := now, exercises := [],
    runData := some { distance := 0, duration := 0 } }

/-- `addNewExercise` from ActiveSessionView: append an exercise with a
3-null-set skeleton and `order = exercises.length`. -/
def addExerciseOp (s : TrainingSession) (name : String)
    (variation : Option String) (exid sid1 sid2 sid3 createdAt : String) :
    TrainingSession :=
  { s with exercises := s.exercises ++ [{ id := exid, name := name, variation := variation, sets := [mkNullSet sid1 createdAt, mkNullSet sid2 createdAt, mkNullSet sid3 createdAt], order := s.exercises.length }] }

/-- Exercise deletion from ExerciseCard (and the history editor): the
source filters the exercise list by index, dropping exactly position `i`. -/
def removeExerciseOp (s : TrainingSession) (i : Nat) : TrainingSession :=
  { s with exercises := s.exercises.eraseIdx i }

/-- `addSet` from ExerciseCard. -/
def addSetOp (s : TrainingSession) (exIndex : Nat) (sid createdAt : String) :
    TrainingSession :=
  updateExerciseAt s exIndex fun ex => { ex with sets := ex.sets ++ [mkNullSet sid createdAt] }

/-- The set-removal part of `deleteSet`. -/
def removeSetOp (s : TrainingSession) (exIndex setIndex : Nat) :
    TrainingSession :=
  updateExerciseAt s exIndex fun ex => { ex with sets := ex.sets.eraseIdx setIndex }

/-- The undo closure of `deleteSet` applied at session level. -/
def undoSetOp (s : TrainingSession) (exIndex setIndex : Nat) (x : SetEntry) :
    TrainingSession :=
  updateExerciseAt s exIndex fun ex => { ex with sets := ex.sets.take setIndex ++ [x] ++ ex.sets.drop setIndex }

/-- Location selection in ActiveSessionView. -/
def setLocationOp (s : TrainingSession) (loc : String) : TrainingSession :=
  { s with location := some loc }

/-- Notes editing in the history editor. -/
def setNotesOp (s : TrainingSession) (n : String) : TrainingSession :=
  { s with notes := some n }

/-- Date editing in the history editor (`date` and `startedAt` both set). -/
def setDateOp (s : TrainingSession) (d : Int) : TrainingSession :=
  { s with date := d, startedAt := d }

/-- Exercise renaming in the history editor. -/
def setExerciseNameOp (s : TrainingSession) (i : Nat) (n : String) :
    TrainingSession :=
  updateExerciseAt s i fun ex => { ex with name := n }

/-- Variation selection (ExerciseCard / history editor). -/
def setVariationOp (s : TrainingSession) (i : Nat) (v : Option String) :
    TrainingSession :=
  updateExerciseAt s i fun ex => { ex with variation := v }

/-- The `s.murphData!` spread: the non-null assertion's fallback is never
used on a murph session, whose `murphData` is present from creation. -/
def murphDefault : MurphData := { rounds := 0 }

/-- `{...s, murphData: {...s.murphData!, <changes>}}`. -/
def murphModify (s : TrainingSession) (f : MurphData → MurphData) :
    TrainingSession :=
  { s with murphData := some (f (s.murphData.getD murphDefault)) }

/-- `startMode` from MurphView. -/
def murphStartOp (s : TrainingSession) (lite wv : Bool) (k : ℚ) :
    TrainingSession :=
  { s with murphData := some { rounds := 0, isLite := some lite, weightVest := some wv, weightVestKg := if wv then some k else none } }

/-- `addRound` from MurphView. -/
def murphAddRoundOp (s : TrainingSession) : TrainingSession :=
  murphModify s fun m => { m with rounds := m.rounds + 1 }

/-- The tick's `updateSession` persisting `totalTime`. -/
def murphSetTimeOp (s : TrainingSession) (n : Nat) : TrainingSession :=
  murphModify s fun m => { m with totalTime := some n }

/-- `handleSave`'s pre-save update in MurphView. -/
def murphSaveFieldsOp (s : TrainingSession) (e : Nat) (wv : Bool) (k : ℚ) :
    TrainingSession :=
  murphModify s fun m => { m with totalTime := some e, weightVest := some wv, weightVestKg := if wv then some k else none }

/-- `handleSave` from RunView: user-supplied date/time into `date`,
`startedAt`, `endedAt`, `completed = true` and the validated run data. -/
def runFillOp (s : TrainingSession) (dt : Int) (dist dur : ℚ) :
    TrainingSession :=
  { s with date := dt, startedAt := dt, endedAt := some dt, completed := true, runData := some { distance := dist, duration := dur } }

/-- `handleSaveEdit` from HistoryView: recompute `totals` for strength
types, leave murph/run untouched. -/
def saveEditOp (s : TrainingSession) : TrainingSession :=
  if s.type ≠ .murph ∧ s.type ≠ .running_type then
    { s with totals := some { volumeKg := some (calcVolume s), setCount := some (totalSetCount s) } }
  else s

/-- The strength training types. -/
abbrev isStrengthType (t : TrainingType) : Prop :=
  t = .push ∨ t = .pull ∨ t = .legs_core

/-- One UI mutation of a session, as dispatched by the views: exercise and
set edits (ActiveSessionView for strength sessions, the history editor for
stored ones), metadata edits, the murph-only and run-only operations. -/
inductive Step : TrainingSession → TrainingSession → Prop where
  | addExercise (s : TrainingSession) (name : String) (variation : Option String)
      (exid sid1 sid2 sid3 createdAt : String) (hty : isStrengthType s.type) :
      Step s (addExerciseOp s name variation exid sid1 sid2 sid3 createdAt)
  | removeExercise (s : TrainingSession) (i : Nat) :
      Step s (removeExerciseOp s i)
  | addSet (s : TrainingSession) (exIndex : Nat) (sid createdAt : String) :
      Step s (addSetOp s exIndex sid createdAt)
  | removeSet (s : TrainingSession) (exIndex setIndex : Nat) :
      Step s (removeSetOp s exIndex setIndex)
  | undoSet (s : TrainingSession) (exIndex setIndex : Nat) (x : SetEntry) :
      Step s (undoSetOp s exIndex setIndex x)
  | setWeight (s : TrainingSession) (exIndex setIndex : Nat) (w : Option ℚ) :
      Step s (setWeightAt s exIndex setIndex w)
  | setReps (s : TrainingSession) (exIndex setIndex : Nat) (r : Option ℚ) :
      Step s (setRepsAt s exIndex setIndex r)
  | setLocation (s : TrainingSession) (loc : String) :
      Step s (setLocationOp s loc)
  | setNotes (s : TrainingSession) (n : String) :
      Step s (setNotesOp s n)
  | setDate (s : TrainingSession) (d : Int) :
      Step s (setDateOp s d)
  | setExerciseName (s : TrainingSession) (i : Nat) (n : String) :
      Step s (setExerciseNameOp s i n)
  | setVariation (s : TrainingSession) (i : Nat) (v : Option String) :
      Step s (setVariationOp s i v)
  | murphStart (s : TrainingSession) (lite wv : Bool) (k : ℚ)
      (hty : s.type = .murph) : Step s (murphStartOp s lite wv k)
  | murphRound (s : TrainingSession) (hty : s.type = .murph) :
      Step s (murphAddRoundOp s)
  | murphTime (s : TrainingSession) (n : Nat) (hty : s.type = .murph) :
      Step s (murphSetTimeOp s n)
  | murphSave (s : TrainingSession) (e : Nat) (wv : Bool) (k : ℚ)
      (hty : s.type = .murph) : Step s (murphSaveFieldsOp s e wv k)
  | runFill (s : TrainingSession) (dt : Int) (dist dur : ℚ)
      (hty : s.type = .running_type) : Step s (runFillOp s dt dist dur)

/-- The sessions reachable through the lifecycle: creation from a template
or as a murph/run shell, UI mutation steps, finalization, and the history
editor's save. -/
inductive Reachable : TrainingSession → Prop where
  | createStrength (t : TrainingType) (template : List TemplateEntry)
      (sid : String) (exId : Nat → String) (setId : Nat → Nat → String)
      (now : Int) (createdAt : String)
      (h : (t = .push ∧ template = PUSH_TEMPLATE) ∨
           (t = .pull ∧ template = PULL_TEMPLATE) ∨
           (t = .legs_core ∧ template = LEGS_TEMPLATE)) :
      Reachable (createStrengthSession t template sid exId setId now createdAt)
  | createMurph (sid : String) (now : Int) :
      Reachable (createMurphSession sid now)
  | createRun (sid : String) (now : Int) :
      Reachable (createRunSession sid now)
  | step {s s' : TrainingSession} : Reachable s → Step s s' → Reachable s'
  | finalize {s : TrainingSession} (now : Int) :
      Reachable s → Reachable (completeSession s now)
  | editSave {s : TrainingSession} :
      Reachable s → Reachable (saveEditOp s)

/-- The claim's first disjunct: exercises non-empty or totals present. -/
def exercisesOrTotals (s : TrainingSession) : Prop :=
  s.exercises ≠ [] ∨ s.totals.isSome = true

/-- Claim C6's predicate, keyed by type: exactly one of `{exercises
non-empty or totals present, murphData present, runData present}`. -/
def claimC6 (s : TrainingSession) : Prop :=
  (isStrengthType s.type →
    exercisesOrTotals s ∧ s.murphData.isSome = false ∧ s.runData.isSome = false) ∧
  (s.type = .murph →
    s.murphData.isSome = true ∧ ¬ exercisesOrTotals s ∧ s.runData.isSome = false) ∧
  (s.type = .running_type →
    s.runData.isSome = true ∧ ¬ exercisesOrTotals s ∧ s.murphData.isSome = false)

/-- The invariant the code actually maintains. -/
def Inv (s : TrainingSession) : Prop :=
  (s.type ≠ .dashboard) ∧
  (s.type = .murph →
    s.murphData.isSome = true ∧ s.exercises = [] ∧ s.totals = none ∧ s.runData = none) ∧
  (s.type = .running_type →
    s.runData.isSome = true ∧ s.exercises = [] ∧ s.totals = none ∧ s.murphData = none) ∧
  (isStrengthType s.type →
    s.murphData = none ∧ s.runData = none ∧ (s.completed = true → s.totals.isSome = true))

/-- The C6 counterexample's base session: a push session freshly created
from the template. -/
def c6Base : TrainingSession :=
  createStrengthSession .push PUSH_TEMPLATE "cx"
    (fun i => "ce" ++ toString i) (fun i k => "cs" ++ toString i ++ "y" ++ toString k)
    0 "cc"

/-- The base session after the user deletes all seven exercises. -/
def c6Stripped : TrainingSession :=
  removeExerciseOp (removeExerciseOp (removeExerciseOp (removeExerciseOp (removeExerciseOp (removeExerciseOp (removeExerciseOp c6Base 0) 0) 0) 0) 0) 0) 0

lemma foldl_add_map {α M : Type} [AddCommMonoid M] (f : α → M) (l : List α)
    (acc : M) : l.foldl (fun t x => t + f x) acc = acc + (l.map f).sum := by
  induction l generalizing acc with
  | nil => simp
  | cons x rest ih =>
    simp only [List.foldl_cons, List.map_cons, List.sum_cons, ih]
    rw [add_assoc]

lemma foldl_sets_eq (l : List SetEntry) (acc : ℚ) :
    l.foldl (fun t s =>
      match s.weightKg, s.reps with
      | some w, some r => t + w * r
      | _, _ => t) acc = acc + (l.map setContribution).sum := by
  induction l generalizing acc with
  | nil => simp
  | cons s rest ih =>
    simp only [List.foldl_cons, List.map_cons, List.sum_cons, ih]
    cases hw : s.weightKg <;> cases hr : s.reps <;>
      simp only [setContribution, hw, hr] <;> ring

lemma foldl_exercises_eq (l : List Exercise) (acc : ℚ) :
    l.foldl (fun total ex =>
      ex.sets.foldl (fun t s =>
        match s.weightKg, s.reps with
        | some w, some r => t + w * r
        | _, _ => t) total) acc
      = acc + (l.map (fun ex => (ex.sets.map setContribution).sum)).sum := by
  simp only [foldl_sets_eq]
  exact foldl_add_map (fun ex => (ex.sets.map setContribution).sum) l acc

lemma calcVolume_eq_volumeSpec (session : TrainingSession) :
    calcVolume session = volumeSpec session := by
  unfold calcVolume volumeSpec
  rw [foldl_exercises_eq]
  ring

/-- Claim C1: for every session, the volume computed by the aggregation
engine (`calcVolume`) equals the sum over all exercises and all their sets of
`weightKg * reps` restricted to sets where both are non-null (a set with
either field null contributing 0), and a session whose sets are all
null-valued has volume 0. -/
theorem C1_volume_invariant (session : TrainingSession) :
    calcVolume session = volumeSpec session ∧
    ((∀ ex ∈ session.exercises, ∀ s ∈ ex.sets,
        s.weightKg = none ∨ s.reps = none) → calcVolume session = 0) := by
  refine ⟨calcVolume_eq_volumeSpec session, fun h => ?_⟩
  rw [calcVolume_eq_volumeSpec]
  unfold volumeSpec
  rw [List.sum_eq_zero]
  intro x hx
  rcases List.mem_map.mp hx with ⟨ex, hex, rfl⟩
  rw [List.sum_eq_zero]
  intro y hy
  rcases List.mem_map.mp hy with ⟨s, hs, rfl⟩
  rcases h ex hex s hs with hnull | hnull
  · simp [setContribution, hnull]
  · cases hw : s.weightKg <;> simp [setContribution, hnull, hw]

/-- Witness for C1 at a concrete all-null session. -/
theorem C1_volume_invariant_witness :
    calcVolume c1Session = volumeSpec c1Session ∧
      ((∀ ex ∈ c1Session.exercises, ∀ s ∈ ex.sets,
          s.weightKg = none ∨ s.reps = none) → calcVolume c1Session = 0) :=
  C1_volume_invariant c1Session

lemma totalSetCount_eq (s : TrainingSession) :
    totalSetCount s = (s.exercises.map (fun ex => ex.sets.length)).sum := by
  unfold totalSetCount
  rw [foldl_add_map (fun ex => ex.sets.length) s.exercises 0, zero_add]

/-- Claim C2: finalizing a strength-type (non-murph, non-run) active session
yields `completed = true`, a set `endedAt`, `totals.setCount` equal to the
sum of the set-array lengths over all exercises (null-valued sets included),
and `totals.volumeKg` equal to the volume formula. -/
theorem C2_finalize_totals (active : TrainingSession) (now : Int)
    (h1 : active.type ≠ TrainingType.murph)
    (h2 : active.type ≠ TrainingType.running_type) :
    (completeSession active now).completed = true ∧
    (completeSession active now).endedAt = some now ∧
    (completeSession active now).totals =
      some { volumeKg := some (volumeSpec active),
             setCount :=
               some ((active.exercises.map (fun ex => ex.sets.length)).sum) } := by
  unfold completeSession
  rw [if_pos ⟨h1, h2⟩]
  exact ⟨rfl, rfl, by rw [calcVolume_eq_volumeSpec, totalSetCount_eq]⟩

/-- Witness for C2 at a concrete push session. -/
theorem C2_finalize_totals_witness :
    (completeSession c2Active 42).completed = true ∧
    (completeSession c2Active 42).endedAt = some 42 ∧
    (completeSession c2Active 42).totals =
      some { volumeKg := some (volumeSpec c2Active),
             setCount :=
               some ((c2Active.exercises.map (fun ex => ex.sets.length)).sum) } :=
  C2_finalize_totals c2Active 42 (by decide) (by decide)

/-- Claim C10: finalizing the active session changes only `completed`,
`endedAt` and (for strength types) `totals`; all other fields of the stored
result are unchanged, and every other session of the Store is kept. -/
theorem C10_finalize_frame (db : DB) (active : TrainingSession) (now : Int) :
    (completeSession active now).id = active.id ∧
    (completeSession active now).type = active.type ∧
    (completeSession active now).date = active.date ∧
    (completeSession active now).startedAt = active.startedAt ∧
    (completeSession active now).exercises = active.exercises ∧
    (completeSession active now).location = active.location ∧
    (completeSession active now).notes = active.notes ∧
    (completeSession active now).murphData = active.murphData ∧
    (completeSession active now).runData = active.runData ∧
    (∀ t ∈ db.sessions, t.id ≠ active.id →
      t ∈ (saveActiveSession db active now).sessions) ∧
    (∀ t ∈ (saveActiveSession db active now).sessions,
      t = completeSession active now ∨ (t ∈ db.sessions ∧ t.id ≠ active.id)) := by
  have hid : (completeSession active now).id = active.id := by
    unfold completeSession; split <;> rfl
  have hframe :
      (completeSession active now).type = active.type ∧
      (completeSession active now).date = active.date ∧
      (completeSession active now).startedAt = active.startedAt ∧
      (completeSession active now).exercises = active.exercises ∧
      (completeSession active now).location = active.location ∧
      (completeSession active now).notes = active.notes ∧
      (completeSession active now).murphData = active.murphData ∧
      (completeSession active now).runData = active.runData := by
    unfold completeSession; split <;>
      exact ⟨rfl, rfl, rfl, rfl, rfl, rfl, rfl, rfl⟩
  refine ⟨hid, hframe.1, hframe.2.1, hframe.2.2.1, hframe.2.2.2.1,
    hframe.2.2.2.2.1, hframe.2.2.2.2.2.1, hframe.2.2.2.2.2.2.1,
    hframe.2.2.2.2.2.2.2, ?_, ?_⟩
  · intro t ht hne
    unfold saveActiveSession
    simp only [List.mem_append, List.mem_filter, decide_eq_true_eq]
    exact Or.inl ⟨ht, by rw [hid]; exact hne⟩
  · intro t ht
    unfold saveActiveSession at ht
    simp only [List.mem_append, List.mem_filter, decide_eq_true_eq,
      List.mem_singleton] at ht
    rcases ht with ⟨h1, h2⟩ | h1
    · exact Or.inr ⟨h1, by rw [hid] at h2; exact h2⟩
    · exact Or.inl h1

/-- Witness for C10 at a concrete store and active session. -/
theorem C10_finalize_frame_witness :
    (completeSession c2Active 42).id = c2Active.id ∧
    (completeSession c2Active 42).type = c2Active.type ∧
    (completeSession c2Active 42).date = c2Active.date ∧
    (completeSession c2Active 42).startedAt = c2Active.startedAt ∧
    (completeSession c2Active 42).exercises = c2Active.exercises ∧
    (completeSession c2Active 42).location = c2Active.location ∧
    (completeSession c2Active 42).notes = c2Active.notes ∧
    (completeSession c2Active 42).murphData = c2Active.murphData ∧
    (completeSession c2Active 42).runData = c2Active.runData ∧
    (∀ t ∈ (DB.mk 1 [c1Session]).sessions, t.id ≠ c2Active.id →
      t ∈ (saveActiveSession (DB.mk 1 [c1Session]) c2Active 42).sessions) ∧
    (∀ t ∈ (saveActiveSession (DB.mk 1 [c1Session]) c2Active 42).sessions,
      t = completeSession c2Active 42 ∨
        (t ∈ (DB.mk 1 [c1Session]).sessions ∧ t.id ≠ c2Active.id)) :=
  C10_finalize_frame (DB.mk 1 [c1Session]) c2Active 42

/-- Claim C5: under the merge import policy every current session is kept
unchanged (the merged list starts with the current list), an imported
session occurs in the result exactly when it was current or its id is fresh,
and importing a backup whose only session's id collides leaves the session
list unchanged. -/
theorem C5_merge_import (cur imp : DB) :
    ((mergeImport cur imp).sessions.take cur.sessions.length = cur.sessions) ∧
    (∀ t, t ∈ (mergeImport cur imp).sessions ↔
      (t ∈ cur.sessions ∨
        (t ∈ imp.sessions ∧ t.id ∉ cur.sessions.map (fun s => s.id)))) ∧
    (∀ t, imp.sessions = [t] → t.id ∈ cur.sessions.map (fun s => s.id) →
      (mergeImport cur imp).sessions = cur.sessions) := by
  refine ⟨?_, ?_, ?_⟩
  · unfold mergeImport
    exact List.take_left cur.sessions _
  · intro t
    unfold mergeImport
    simp [List.mem_append, List.mem_filter]
  · intro t himp hid
    unfold mergeImport
    simp only [himp, List.filter_cons, List.filter_nil]
    rw [if_neg (by simp [hid])]
    exact List.append_nil cur.sessions

/-- Witness for C5 at a concrete collision. -/
theorem C5_merge_import_witness :
    ((mergeImport (DB.mk 1 [c5Stored]) (DB.mk 1 [c5Imported])).sessions.take
        (DB.mk 1 [c5Stored]).sessions.length = (DB.mk 1 [c5Stored]).sessions) ∧
    (∀ t, t ∈ (mergeImport (DB.mk 1 [c5Stored]) (DB.mk 1 [c5Imported])).sessions ↔
      (t ∈ (DB.mk 1 [c5Stored]).sessions ∨
        (t ∈ (DB.mk 1 [c5Imported]).sessions ∧
          t.id ∉ (DB.mk 1 [c5Stored]).sessions.map (fun s => s.id)))) ∧
    (∀ t, (DB.mk 1 [c5Imported]).sessions = [t] →
      t.id ∈ (DB.mk 1 [c5Stored]).sessions.map (fun s => s.id) →
      (mergeImport (DB.mk 1 [c5Stored]) (DB.mk 1 [c5Imported])).sessions =
        (DB.mk 1 [c5Stored]).sessions) :=
  C5_merge_import (DB.mk 1 [c5Stored]) (DB.mk 1 [c5Imported])

lemma scanForLastSet_none (name : String) (variation : Option String)
    (setIndex : Nat) (l : List TrainingSession)
    (h : ∀ s ∈ l, s.exercises.find? (matchesExercise name variation) = none) :
    scanForLastSet name variation setIndex l = none := by
  induction l with
  | nil => rfl
  | cons s rest ih =>
    unfold scanForLastSet
    rw [h s (List.mem_cons_self s rest)]
    exact ih fun t ht => h t (List.mem_cons_of_mem s ht)

lemma scanForLastSet_found (name : String) (variation : Option String)
    (setIndex : Nat) (l₁ l₂ : List TrainingSession) (s : TrainingSession)
    (ex : Exercise)
    (h₁ : ∀ t ∈ l₁, t.exercises.find? (matchesExercise name variation) = none)
    (hs : s.exercises.find? (matchesExercise name variation) = some ex)
    (hne : ex.sets ≠ []) :
    (setIndex < ex.sets.length →
      scanForLastSet name variation setIndex (l₁ ++ s :: l₂) =
        ex.sets[setIndex]?) ∧
    (ex.sets.length ≤ setIndex →
      scanForLastSet name variation setIndex (l₁ ++ s :: l₂) =
        ex.sets.getLast?) := by
  induction l₁ with
  | nil =>
    constructor
    · intro hlt
      have hidx : ex.sets[setIndex]? = some ex.sets[setIndex] :=
        List.getElem?_eq_getElem hlt
      simp only [List.nil_append, scanForLastSet, hs, hidx]
    · intro hge
      have hidx : ex.sets[setIndex]? = none :=
        List.getElem?_eq_none hge
      have hlast : ex.sets.getLast? = some (ex.sets.getLast hne) :=
        List.getLast?_eq_getLast ex.sets hne
      simp only [List.nil_append, scanForLastSet, hs, hidx, hlast]
  | cons t rest ih =>
    have hrec := ih fun u hu => h₁ u (List.mem_cons_of_mem t hu)
    have ht : t.exercises.find? (matchesExercise name variation) = none :=
      h₁ t (List.mem_cons_self t rest)
    constructor
    · intro hlt
      simp only [List.cons_append, scanForLastSet, ht]
      exact hrec.1 hlt
    · intro hge
      simp only [List.cons_append, scanForLastSet, ht]
      exact hrec.2 hge

/-- Claim C3: `findLastSet` scans the completed sessions of the relevant
type (excluding the active session's id) in reverse chronological order by
date; for the first scanned session containing an exercise matching
`(name, variation)` exactly it returns that exercise's set at `setIndex`
when it exists and otherwise that exercise's last set when it has any sets;
when no scanned session contains a matching exercise it returns null. -/
theorem C3_findLastSet (db : DB) (tab : TrainingType) (activeId : Option String)
    (name : String) (variation : Option String) (setIndex : Nat) :
    (∀ s, s ∈ sortByDateDesc (db.sessions.filter fun s => decide (s.type = tab ∧ s.completed = true ∧ activeId ≠ some s.id)) ↔
      (s ∈ db.sessions ∧ s.type = tab ∧ s.completed = true ∧ activeId ≠ some s.id)) ∧
    List.Sorted laterDate (sortByDateDesc (db.sessions.filter fun s => decide (s.type = tab ∧ s.completed = true ∧ activeId ≠ some s.id))) ∧
    ((∀ s ∈ sortByDateDesc (db.sessions.filter fun s => decide (s.type = tab ∧ s.completed = true ∧ activeId ≠ some s.id)),
        ∀ ex ∈ s.exercises, matchesExercise name variation ex = false) →
      findLastSet db tab activeId name variation setIndex = none) ∧
    (∀ l₁ s l₂ ex,
      sortByDateDesc (db.sessions.filter fun s => decide (s.type = tab ∧ s.completed = true ∧ activeId ≠ some s.id)) = l₁ ++ s :: l₂ →
      (∀ t ∈ l₁, t.exercises.find? (matchesExercise name variation) = none) →
      s.exercises.find? (matchesExercise name variation) = some ex →
      ex.sets ≠ [] →
      ((setIndex < ex.sets.length →
          findLastSet db tab activeId name variation setIndex =
            ex.sets[setIndex]?) ∧
        (ex.sets.length ≤ setIndex →
          findLastSet db tab activeId name variation setIndex =
            ex.sets.getLast?))) := by
  refine ⟨?_, ?_, ?_, ?_⟩
  · intro s
    unfold sortByDateDesc
    rw [(List.perm_insertionSort laterDate _).mem_iff, List.mem_filter,
      decide_eq_true_eq]
  · exact List.sorted_insertionSort laterDate _
  · intro h
    unfold findLastSet
    refine scanForLastSet_none name variation setIndex _ fun s hsmem => ?_
    exact List.find?_eq_none.mpr fun ex hex => by
      rw [h s hsmem ex hex]; exact Bool.false_ne_true
  · intro l₁ s l₂ ex heq h₁ hs hne
    unfold findLastSet
    rw [heq]
    exact scanForLastSet_found name variation setIndex l₁ l₂ s ex h₁ hs hne

/-- Witness for C3: the scenario `findLastSet("Klimmzüge", undefined, 10)`
against a store whose only matching completed exercise has 5 sets; the last
conjunct evaluates the fallback concretely to the set at index 4. -/
theorem C3_findLastSet_witness :
    ((∀ s, s ∈ sortByDateDesc ((DB.mk 1 [c3Session]).sessions.filter fun s => decide (s.type = .pull ∧ s.completed = true ∧ (none : Option String) ≠ some s.id)) ↔
      (s ∈ (DB.mk 1 [c3Session]).sessions ∧ s.type = .pull ∧ s.completed = true ∧ (none : Option String) ≠ some s.id)) ∧
    List.Sorted laterDate (sortByDateDesc ((DB.mk 1 [c3Session]).sessions.filter fun s => decide (s.type = .pull ∧ s.completed = true ∧ (none : Option String) ≠ some s.id))) ∧
    ((∀ s ∈ sortByDateDesc ((DB.mk 1 [c3Session]).sessions.filter fun s => decide (s.type = .pull ∧ s.completed = true ∧ (none : Option String) ≠ some s.id)),
        ∀ ex ∈ s.exercises, matchesExercise "Klimmzüge" none ex = false) →
      findLastSet (DB.mk 1 [c3Session]) .pull none "Klimmzüge" none 10 = none) ∧
    (∀ l₁ s l₂ ex,
      sortByDateDesc ((DB.mk 1 [c3Session]).sessions.filter fun s => decide (s.type = .pull ∧ s.completed = true ∧ (none : Option String) ≠ some s.id)) = l₁ ++ s :: l₂ →
      (∀ t ∈ l₁, t.exercises.find? (matchesExercise "Klimmzüge" none) = none) →
      s.exercises.find? (matchesExercise "Klimmzüge" none) = some ex →
      ex.sets ≠ [] →
      ((10 < ex.sets.length →
          findLastSet (DB.mk 1 [c3Session]) .pull none "Klimmzüge" none 10 =
            ex.sets[10]?) ∧
        (ex.sets.length ≤ 10 →
          findLastSet (DB.mk 1 [c3Session]) .pull none "Klimmzüge" none 10 =
            ex.sets.getLast?)))) ∧
    findLastSet (DB.mk 1 [c3Session]) .pull none "Klimmzüge" none 10 =
      some { id := "k5", weightKg := some 10, reps := some 4, createdAt := "c5" } :=
  ⟨C3_findLastSet (DB.mk 1 [c3Session]) .pull none "Klimmzüge" none 10,
    by decide⟩

/-- Counterexample to C9: on `"x5"` the source's `parseNumber` returns null
while the claimed strip-then-parse behaviour returns 5 — non-numeric
residue is not stripped (`parseFloat` rejects leading residue). -/
theorem C9_counterexample :
    parseNumber "x5" = none ∧
      parseNumberStripSpec "x5" = some (JSNum.finite 5) ∧
      parseNumber "x5" ≠ parseNumberStripSpec "x5" := by
  have ha : parseNumber "x5" = none := by decide
  have hb : parseNumberStripSpec "x5" = some (JSNum.finite 5) := by
    have h1 : parseNumberStripSpec "x5" =
        some (JSNum.finite ((digitsVal ['5'] : ℚ) * (10 : ℚ) ^ (0 : ℤ))) := rfl
    rw [h1, show digitsVal ['5'] = 5 from by decide, zpow_zero, mul_one]
    norm_num
  exact ⟨ha, hb, by rw [ha, hb]; exact fun h => Option.noConfusion h⟩

lemma dropWhile_eq_self_of_head {p : Char → Bool} :
    ∀ l : List Char, (∀ c ∈ l, p c = false) → l.dropWhile p = l := by
  intro l h
  cases l with
  | nil => rfl
  | cons c r =>
    rw [List.dropWhile_cons, h c (List.mem_cons_self c r)]
    simp

lemma trimChars_of_no_space (l : List Char)
    (h : ∀ c ∈ l, isSpaceChar c = false) : trimChars l = l := by
  unfold trimChars
  rw [dropWhile_eq_self_of_head l h,
    dropWhile_eq_self_of_head l.reverse (fun c hc => h c (List.mem_reverse.mp hc)),
    List.reverse_reverse]

lemma digit_not_space {c : Char} (h : c.isDigit = true) :
    isSpaceChar c = false := by
  unfold isSpaceChar
  cases hq : decide (c ∈ SPACE_CHARS) with
  | false => rfl
  | true =>
    exfalso
    have hmem : c ∈ SPACE_CHARS := of_decide_eq_true hq
    simp only [SPACE_CHARS] at hmem
    fin_cases hmem <;> exact absurd h (by decide)

lemma digit_ne_comma {c : Char} (h : c.isDigit = true) : c ≠ ',' :=
  fun he => by rw [he] at h; exact absurd h (by decide)

lemma replaceFirst_no_comma (l : List Char) (h : ∀ c ∈ l, c ≠ ',') :
    replaceFirstCommaDot l = l := by
  induction l with
  | nil => rfl
  | cons c r ih =>
    unfold replaceFirstCommaDot
    rw [if_neg (h c (List.mem_cons_self c r)),
      ih fun d hd => h d (List.mem_cons_of_mem c hd)]

lemma replaceFirst_comma_split (a b : List Char) (h : ∀ c ∈ a, c ≠ ',') :
    replaceFirstCommaDot (a ++ ',' :: b) = a ++ '.' :: b := by
  induction a with
  | nil => simp [replaceFirstCommaDot]
  | cons c r ih =>
    rw [List.cons_append]
    unfold replaceFirstCommaDot
    rw [if_neg (h c (List.mem_cons_self c r)),
      ih fun d hd => h d (List.mem_cons_of_mem c hd), List.cons_append]

lemma replaceFirst_cons_of_ne (c : Char) (r : List Char) (h : c ≠ ',') :
    replaceFirstCommaDot (c :: r) = c :: replaceFirstCommaDot r := by
  simp only [replaceFirstCommaDot]
  rw [if_neg h]

lemma replaceFirst_append_no_comma (a r : List Char) (h : ∀ c ∈ a, c ≠ ',') :
    replaceFirstCommaDot (a ++ r) = a ++ replaceFirstCommaDot r := by
  induction a with
  | nil => rfl
  | cons c a' ih =>
    rw [List.cons_append,
      replaceFirst_cons_of_ne c (a' ++ r) (h c (List.mem_cons_self c a')),
      ih fun d hd => h d (List.mem_cons_of_mem c hd), List.cons_append]

lemma takeWhile_dropWhile_append {p : Char → Bool} (a r : List Char)
    (ha : ∀ c ∈ a, p c = true) (hr : ∀ c, r.head? = some c → p c = false) :
    (a ++ r).takeWhile p = a ∧ (a ++ r).dropWhile p = r := by
  induction a with
  | nil =>
    simp only [List.nil_append]
    cases r with
    | nil => exact ⟨rfl, rfl⟩
    | cons c rest =>
      simp only [List.takeWhile_cons, List.dropWhile_cons, hr c rfl,
        Bool.false_eq_true, if_false]
      exact ⟨by trivial, by trivial⟩
  | cons x a' ih =>
    have hx := ha x (List.mem_cons_self x a')
    obtain ⟨ih1, ih2⟩ := ih fun c hc => ha c (List.mem_cons_of_mem x hc)
    simp only [List.cons_append, List.takeWhile_cons, List.dropWhile_cons, hx,
      if_true, ih1, ih2]
    exact ⟨by trivial, by trivial⟩

/-- Claim C9 as amended: `parseNumber` never throws (it is a total function
into `Option`), maps empty/whitespace input to null and never to 0, maps
input whose first non-whitespace character cannot begin a number (a digit,
sign, point, comma or the `Infinity` form) to null — other residue is not
stripped — while residue after a parsed digit string is simply ignored, and
it accepts either comma or dot as the decimal separator of a digit
string. -/
theorem C9_parseNumber_amended :
    (∀ s, jsTrim s = "" → parseNumber s = none) ∧
    (∀ s c rest, (jsTrim s).data = c :: rest → canStartNumber c = false →
      parseNumber s = none) ∧
    (∀ s, parseNumber s = none ∨ ∃ q : JSNum, parseNumber s = some q) ∧
    (∀ s, jsTrim s = "" → parseNumber s ≠ some (JSNum.finite 0)) ∧
    (∀ a b : List Char, a ≠ [] → (∀ c ∈ a, c.isDigit = true) →
      (∀ c ∈ b, c.isDigit = true) →
      parseNumber (String.mk (a ++ ',' :: b)) =
        parseNumber (String.mk (a ++ '.' :: b))) ∧
    (∀ a r : List Char, a ≠ [] → (∀ c ∈ a, c.isDigit = true) →
      (∀ c ∈ r, isSpaceChar c = false) →
      (∀ c, r.head? = some c → canExtendNumber c = false) →
      parseNumber (String.mk (a ++ r)) =
        some (JSNum.finite ((digitsVal a : ℚ)))) := by
  have hempty : ∀ s, jsTrim s = "" → parseNumber s = none := by
    intro s h
    unfold parseNumber
    rw [if_pos h]
  refine ⟨hempty, ?_, ?_, ?_, ?_, ?_⟩
  · intro s c rest hdata hstart
    have hne : jsTrim s ≠ "" := by
      intro h
      rw [h] at hdata
      exact List.noConfusion hdata
    have hnotdig : c.isDigit = false := by
      cases h : c.isDigit with
      | false => rfl
      | true => rw [canStartNumber, h] at hstart; exact absurd hstart (by simp)
    have hdot : c ≠ '.' := by
      intro he
      rw [canStartNumber, he] at hstart
      exact absurd hstart (by simp)
    have hcomma : c ≠ ',' := by
      intro he
      rw [canStartNumber, he] at hstart
      exact absurd hstart (by simp)
    have hminus : c ≠ '-' := by
      intro he
      rw [canStartNumber, he] at hstart
      exact absurd hstart (by simp)
    have hplus : c ≠ '+' := by
      intro he
      rw [canStartNumber, he] at hstart
      exact absurd hstart (by simp)
    have hI : c ≠ 'I' := by
      intro he
      rw [canStartNumber, he] at hstart
      exact absurd hstart (by simp)
    unfold parseNumber
    rw [if_neg hne, hdata]
    unfold replaceFirstCommaDot
    rw [if_neg hcomma]
    unfold jsParseFloat
    simp only
    rw [if_neg hminus, if_neg hplus]
    unfold parseUnsigned
    rw [if_neg (show ¬((c :: replaceFirstCommaDot rest).take 8 = "Infinity".data) from
      fun h2 => hI (Option.some.inj (congrArg List.head? h2)))]
    simp only [List.takeWhile_cons, List.dropWhile_cons, hnotdig,
      Bool.false_eq_true, if_false, List.head?_cons]
    rw [if_neg (by simpa using hdot)]
    rfl
  · intro s
    cases h : parseNumber s with
    | none => exact Or.inl rfl
    | some q => exact Or.inr ⟨q, rfl⟩
  · intro s h
    rw [hempty s h]
    exact Option.noConfusion
  · intro a b ha hda hdb
    have hnocomma_a : ∀ c ∈ a, c ≠ ',' := fun c hc => digit_ne_comma (hda c hc)
    have hnospace : ∀ c ∈ a ++ ',' :: b, isSpaceChar c = false := by
      intro c hc
      rcases List.mem_append.mp hc with h | h
      · exact digit_not_space (hda c h)
      · rcases List.mem_cons.mp h with rfl | h
        · decide
        · exact digit_not_space (hdb c h)
    have hnospace2 : ∀ c ∈ a ++ '.' :: b, isSpaceChar c = false := by
      intro c hc
      rcases List.mem_append.mp hc with h | h
      · exact digit_not_space (hda c h)
      · rcases List.mem_cons.mp h with rfl | h
        · decide
        · exact digit_not_space (hdb c h)
    have htrim1 : jsTrim (String.mk (a ++ ',' :: b)) = String.mk (a ++ ',' :: b) := by
      unfold jsTrim
      rw [trimChars_of_no_space _ hnospace]
    have htrim2 : jsTrim (String.mk (a ++ '.' :: b)) = String.mk (a ++ '.' :: b) := by
      unfold jsTrim
      rw [trimChars_of_no_space _ hnospace2]
    have hne1 : String.mk (a ++ ',' :: b) ≠ "" := by
      intro h
      have := congrArg String.data h
      cases a <;> exact List.noConfusion this
    have hne2 : String.mk (a ++ '.' :: b) ≠ "" := by
      intro h
      have := congrArg String.data h
      cases a <;> exact List.noConfusion this
    unfold parseNumber
    rw [htrim1, htrim2, if_neg hne1, if_neg hne2]
    simp only
    rw [replaceFirst_comma_split a b hnocomma_a,
      replaceFirst_no_comma (a ++ '.' :: b) ?nc]
    case nc =>
      intro c hc
      rcases List.mem_append.mp hc with h | h
      · exact digit_ne_comma (hda c h)
      · rcases List.mem_cons.mp h with rfl | h
        · decide
        · exact digit_ne_comma (hdb c h)
  · intro a r ha hda hrs hrc
    have hrdig : ∀ c, r.head? = some c → c.isDigit = false := by
      intro c hc
      cases h : c.isDigit with
      | false => rfl
      | true =>
        have hce := hrc c hc
        rw [canExtendNumber, h] at hce
        exact absurd hce (by simp)
    have hrdot : ∀ c, r.head? = some c → c ≠ '.' := by
      intro c hc he
      have hce := hrc c hc
      rw [canExtendNumber, he] at hce
      exact absurd hce (by simp)
    have hrcomma : ∀ c, r.head? = some c → c ≠ ',' := by
      intro c hc he
      have hce := hrc c hc
      rw [canExtendNumber, he] at hce
      exact absurd hce (by simp)
    have hre : ∀ c, r.head? = some c → c ≠ 'e' := by
      intro c hc he
      have hce := hrc c hc
      rw [canExtendNumber, he] at hce
      exact absurd hce (by simp)
    have hrE : ∀ c, r.head? = some c → c ≠ 'E' := by
      intro c hc he
      have hce := hrc c hc
      rw [canExtendNumber, he] at hce
      exact absurd hce (by simp)
    have hnospace : ∀ c ∈ a ++ r, isSpaceChar c = false := by
      intro c hc
      rcases List.mem_append.mp hc with h | h
      · exact digit_not_space (hda c h)
      · exact hrs c h
    have htrim : jsTrim (String.mk (a ++ r)) = String.mk (a ++ r) := by
      unfold jsTrim
      rw [trimChars_of_no_space _ hnospace]
    have hne0 : String.mk (a ++ r) ≠ "" := by
      intro h
      have hdat := congrArg String.data h
      cases a with
      | nil => exact ha rfl
      | cons x a' => exact List.noConfusion hdat
    unfold parseNumber
    rw [htrim, if_neg hne0]
    simp only
    rw [replaceFirst_append_no_comma a r (fun c hc => digit_ne_comma (hda c hc))]
    obtain ⟨d, a', rfl⟩ : ∃ d a', a = d :: a' := by
      cases a with
      | nil => exact absurd rfl ha
      | cons d a' => exact ⟨d, a', rfl⟩
    have hd : d.isDigit = true := hda d (List.mem_cons_self d a')
    have hdm : d ≠ '-' := fun he => by rw [he] at hd; exact absurd hd (by decide)
    have hdp : d ≠ '+' := fun he => by rw [he] at hd; exact absurd hd (by decide)
    have hdI : d ≠ 'I' := fun he => by rw [he] at hd; exact absurd hd (by decide)
    have hr2head : ∀ c, (replaceFirstCommaDot r).head? = some c →
        c.isDigit = false := by
      intro c hc
      cases r with
      | nil => exact absurd hc (by simp [replaceFirstCommaDot])
      | cons c' rest' =>
        rw [replaceFirst_cons_of_ne c' rest' (hrcomma c' rfl),
          List.head?_cons] at hc
        obtain rfl : c' = c := Option.some.inj hc
        exact hrdig c' rfl
    obtain ⟨htw, hdw⟩ := takeWhile_dropWhile_append (d :: a')
      (replaceFirstCommaDot r) hda hr2head
    rw [List.cons_append] at htw hdw
    unfold jsParseFloat
    simp only [List.cons_append]
    rw [if_neg hdm, if_neg hdp]
    unfold parseUnsigned
    rw [if_neg (show ¬((d :: (a' ++ replaceFirstCommaDot r)).take 8 = "Infinity".data) from
      fun h2 => hdI (Option.some.inj (congrArg List.head? h2)))]
    rw [htw, hdw]
    cases r with
    | nil =>
      rw [show replaceFirstCommaDot ([] : List Char) = [] from rfl]
      rw [if_neg (show ¬(([] : List Char).head? = some '.') from by simp)]
      rw [if_neg (show ¬((d :: a').isEmpty = true) from by simp)]
      rw [show parseExponent ([] : List Char) = 0 from rfl, zpow_zero, mul_one]
    | cons c' rest' =>
      rw [replaceFirst_cons_of_ne c' rest' (hrcomma c' rfl)]
      rw [List.head?_cons]
      rw [if_neg (show ¬(some c' = some '.') from by simpa using hrdot c' rfl)]
      rw [if_neg (show ¬((d :: a').isEmpty = true) from by simp)]
      have hexp : parseExponent (c' :: replaceFirstCommaDot rest') = 0 := by
        unfold parseExponent
        simp only
        rw [if_neg (fun hor : c' = 'e' ∨ c' = 'E' =>
          hor.elim (hre c' rfl) (hrE c' rfl))]
      rw [hexp, zpow_zero, mul_one]

/-- Witness for the amended C9: comma and dot parses of `3,5` and `3.5`
agree, the empty input is null, and the trailing residue of `5x` is
ignored. -/
theorem C9_parseNumber_amended_witness :
    parseNumber (String.mk (['3'] ++ ',' :: ['5'])) =
      parseNumber (String.mk (['3'] ++ '.' :: ['5'])) ∧
    parseNumber "" = none ∧
    parseNumber (String.mk (['5'] ++ ['x'])) =
      some (JSNum.finite ((digitsVal ['5'] : ℚ))) :=
  ⟨C9_parseNumber_amended.2.2.2.2.1 ['3'] ['5'] (by decide) (by decide)
      (by decide),
    C9_parseNumber_amended.1 "" (by decide),
    C9_parseNumber_amended.2.2.2.2.2 ['5'] ['x'] (by decide) (by decide)
      (by decide)
      (fun c hc => by rw [← Option.some.inj hc]; decide)⟩

/-- Counterexample to C7: at elapsed 1499 (last persisted `totalTime`
1499), the next Lite tick clamps the elapsed counter to 1500 and stops the
timer, but the session's `murphData.totalTime` stays 1499 — it does not
become 1500 as the claim states. -/
theorem C7_counterexample :
    murphTick true ⟨1499, true, some 1499⟩ = ⟨1500, false, some 1499⟩ ∧
    (murphTick true ⟨1499, true, some 1499⟩).savedTotalTime ≠ some 1500 := by
  decide

/-- Claim C7 as amended: from elapsed 1499 with the timer running, one more
Lite tick makes the elapsed counter 1500 (the cap) and stops the timer,
while the persisted `murphData.totalTime` remains 1499 (the capping tick
does not persist); every further tick leaves that state unchanged; and in
general Lite ticks never push the elapsed counter past the cap nor persist
a `totalTime` at or past the cap. -/
theorem C7_murph_cap_amended :
    (murphTick true ⟨1499, true, some 1499⟩ = ⟨1500, false, some 1499⟩) ∧
    (∀ k, 1 ≤ k →
      (murphTick true)^[k] ⟨1499, true, some 1499⟩ = ⟨1500, false, some 1499⟩) ∧
    (∀ st : MurphTimer, st.elapsed ≤ MURPH_LITE_TIME →
      (murphTick true st).elapsed ≤ MURPH_LITE_TIME) ∧
    (∀ st : MurphTimer, (murphTick true st).savedTotalTime = st.savedTotalTime ∨
      ∃ n, (murphTick true st).savedTotalTime = some n ∧ n < MURPH_LITE_TIME) := by
  have hstep : murphTick true ⟨1499, true, some 1499⟩ = ⟨1500, false, some 1499⟩ := by
    decide
  have hfix : murphTick true ⟨1500, false, some 1499⟩ = ⟨1500, false, some 1499⟩ := by
    decide
  refine ⟨hstep, ?_, ?_, ?_⟩
  · intro k hk
    induction k with
    | zero => exact absurd hk (by decide)
    | succ n ih =>
      rcases Nat.eq_or_lt_of_le hk with h1 | h1
      · rw [← h1]
        simpa using hstep
      · rw [Function.iterate_succ_apply', ih (Nat.lt_succ_iff.mp h1)]
        exact hfix
  · intro st hst
    unfold murphTick
    split_ifs with h1 h2
    · exact Nat.le_refl _
    · have h3 : ¬ MURPH_LITE_TIME ≤ st.elapsed + 1 := by simpa using h2
      exact Nat.le_of_lt (Nat.lt_of_not_le h3)
    · exact hst
  · intro st
    unfold murphTick
    split_ifs with h1 h2
    · exact Or.inl rfl
    · have h3 : ¬ MURPH_LITE_TIME ≤ st.elapsed + 1 := by simpa using h2
      exact Or.inr ⟨st.elapsed + 1, rfl, Nat.lt_of_not_le h3⟩
    · exact Or.inl rfl

/-- Witness for the amended C7 at concrete timer states. -/
theorem C7_murph_cap_amended_witness :
    ((murphTick true)^[3] ⟨1499, true, some 1499⟩ = ⟨1500, false, some 1499⟩) ∧
    ((murphTick true ⟨10, true, none⟩).elapsed ≤ MURPH_LITE_TIME) ∧
    ((murphTick true ⟨10, true, none⟩).savedTotalTime = (⟨10, true, (none : Option Nat)⟩ : MurphTimer).savedTotalTime ∨
      ∃ n, (murphTick true ⟨10, true, none⟩).savedTotalTime = some n ∧ n < MURPH_LITE_TIME) :=
  ⟨C7_murph_cap_amended.2.1 3 (by decide),
    C7_murph_cap_amended.2.2.1 ⟨10, true, none⟩ (by decide),
    C7_murph_cap_amended.2.2.2 ⟨10, true, none⟩⟩

lemma insert_eraseIdx (l : List SetEntry) (i : Nat) (h : i < l.length) :
    (l.eraseIdx i).take i ++ [l[i]] ++ (l.eraseIdx i).drop i = l := by
  induction l generalizing i with
  | nil => exact absurd h (by simp)
  | cons x xs ih =>
    cases i with
    | zero => simp [List.eraseIdx]
    | succ n =>
      have hn : n < xs.length := Nat.lt_of_succ_lt_succ h
      simp only [List.eraseIdx, List.take_succ_cons, List.drop_succ_cons,
        List.getElem_cons_succ, List.cons_append, List.append_assoc]
      have := ih n hn
      rw [List.append_assoc, List.singleton_append] at this
      simp only [List.nil_append]
      rw [this]

/-- Claim C8: deleting the set at a valid index `i` and invoking undo
within the 5-second window restores the exact pre-deletion set array (so
the restored set keeps its id and `createdAt` and sits at index `i`), and
invoking undo after the window has expired changes nothing. -/
theorem C8_undo_restores (sets : List SetEntry) (i : Nat)
    (h : i < sets.length) :
    (undoPress (deleteSetOp ⟨sets, none⟩ i)).sets = sets ∧
    (undoPress (deleteSetOp ⟨sets, none⟩ i)).sets[i]? = some sets[i] ∧
    (∀ st : SetUndoState, undoPress (undoExpire st) = undoExpire st) := by
  have hget : sets[i]? = some sets[i] := List.getElem?_eq_getElem h
  have hrestore : (undoPress (deleteSetOp ⟨sets, none⟩ i)).sets = sets := by
    unfold deleteSetOp undoPress
    simp only [hget, Option.map_some]
    exact insert_eraseIdx sets i h
  refine ⟨hrestore, ?_, ?_⟩
  · rw [hrestore, hget]
  · intro st
    unfold undoExpire undoPress
    simp

/-- Witness for C8 at a concrete array and index. -/
theorem C8_undo_restores_witness :
    (undoPress (deleteSetOp ⟨c8Sets, none⟩ 1)).sets = c8Sets ∧
    (undoPress (deleteSetOp ⟨c8Sets, none⟩ 1)).sets[1]? = some c8Sets[1] ∧
    (∀ st : SetUndoState, undoPress (undoExpire st) = undoExpire st) :=
  C8_undo_restores c8Sets 1 (by decide)

lemma c4_volume : calcVolume c4Mutated = 400 := by
  show (0 : ℚ) + 80 * 5 = 400
  norm_num

lemma c4_setCount : totalSetCount c4Mutated = 23 := by decide

lemma c4_totals :
    c4Final.totals =
      some { volumeKg := some (calcVolume c4Mutated),
             setCount := some (totalSetCount c4Mutated) } := rfl

/-- Counterexample to C4: the finalized scenario session has
`totals.setCount = 23`, not 35 — the push template owns one heavy lift
(Bankdrücken, 5 sets) and six 3-set exercises, and the template sum under
the 5-vs-3 rule is 23. -/
theorem C4_counterexample :
    c4Final.totals = some { volumeKg := some 400, setCount := some 23 } ∧
    (PUSH_TEMPLATE.map fun e => defaultSetCount e.name).sum = 23 ∧
    (some 23 : Option Nat) ≠ some 35 := by
  refine ⟨?_, by decide, by decide⟩
  rw [c4_totals, c4_volume, c4_setCount]

/-- Claim C4 as amended: the scenario yields `totals.volumeKg = 400` and
`totals.setCount = 23`, where 23 is the sum of the push template's set
counts under the 5-vs-3 heavy-lift rule (5 + 6·3). -/
theorem C4_push_scenario_amended :
    c4Final.completed = true ∧
    c4Final.totals =
      some { volumeKg := some 400,
             setCount := some ((PUSH_TEMPLATE.map fun e => defaultSetCount e.name).sum) } := by
  refine ⟨by decide, ?_⟩
  rw [c4_totals, c4_volume, c4_setCount]
  decide

lemma Inv_frame {s s' : TrainingSession} (h : Inv s)
    (hty : s'.type = s.type) (hm : s'.murphData = s.murphData)
    (hr : s'.runData = s.runData) (ht : s'.totals = s.totals)
    (hc : s'.completed = s.completed)
    (hex : s.exercises = [] → s'.exercises = []) : Inv s' := by
  obtain ⟨h0, h1, h2, h3⟩ := h
  refine ⟨by rw [hty]; exact h0, ?_, ?_, ?_⟩
  · intro hmu
    rw [hty] at hmu
    obtain ⟨a, b, c, d⟩ := h1 hmu
    exact ⟨by rw [hm]; exact a, hex b, by rw [ht]; exact c, by rw [hr]; exact d⟩
  · intro hru
    rw [hty] at hru
    obtain ⟨a, b, c, d⟩ := h2 hru
    exact ⟨by rw [hr]; exact a, hex b, by rw [ht]; exact c, by rw [hm]; exact d⟩
  · intro hst
    rw [hty] at hst
    obtain ⟨a, b, c⟩ := h3 hst
    exact ⟨by rw [hm]; exact a, by rw [hr]; exact b,
      fun hcomp => by rw [ht]; exact c (hc.symm.trans hcomp)⟩

lemma Inv_frame_strength {s s' : TrainingSession} (h : Inv s)
    (hty : s'.type = s.type) (hstr : isStrengthType s.type)
    (hm : s'.murphData = s.murphData) (hr : s'.runData = s.runData)
    (ht : s'.totals = s.totals) (hc : s'.completed = s.completed) :
    Inv s' := by
  obtain ⟨h0, _, _, h3⟩ := h
  obtain ⟨a, b, c⟩ := h3 hstr
  refine ⟨by rw [hty]; exact h0, ?_, ?_, ?_⟩
  · intro hmu
    rw [hty] at hmu
    rcases hstr with he | he | he <;> rw [he] at hmu <;> exact absurd hmu (by decide)
  · intro hru
    rw [hty] at hru
    rcases hstr with he | he | he <;> rw [he] at hru <;> exact absurd hru (by decide)
  · intro _
    exact ⟨by rw [hm]; exact a, by rw [hr]; exact b,
      fun hcomp => by rw [ht]; exact c (hc.symm.trans hcomp)⟩

lemma Inv_frame_murph {s s' : TrainingSession} (h : Inv s)
    (hty : s'.type = s.type) (hmu : s.type = .murph)
    (hm : s'.murphData.isSome = true) (hr : s'.runData = s.runData)
    (ht : s'.totals = s.totals) (hex : s'.exercises = s.exercises) :
    Inv s' := by
  obtain ⟨h0, h1, _, _⟩ := h
  obtain ⟨_, b, c, d⟩ := h1 hmu
  refine ⟨by rw [hty]; exact h0, ?_, ?_, ?_⟩
  · intro _
    exact ⟨hm, by rw [hex]; exact b, by rw [ht]; exact c, by rw [hr]; exact d⟩
  · intro hru
    rw [hty, hmu] at hru
    exact absurd hru (by decide)
  · intro hst
    rw [hty, hmu] at hst
    rcases hst with he | he | he <;> exact absurd he (by decide)

lemma Inv_preserved_step {s s' : TrainingSession} (hstep : Step s s')
    (ih : Inv s) : Inv s' := by
  cases hstep with
  | addExercise name variation exid sid1 sid2 sid3 createdAt hty =>
    exact Inv_frame_strength ih rfl hty rfl rfl rfl rfl
  | removeExercise i =>
    exact Inv_frame ih rfl rfl rfl rfl rfl (fun h => by
      show (s.exercises.eraseIdx i) = []
      rw [h]
      rfl)
  | addSet exIndex sid createdAt =>
    exact Inv_frame ih rfl rfl rfl rfl rfl (fun h => by
      show jsMapIdx _ s.exercises = []
      rw [h]
      rfl)
  | removeSet exIndex setIndex =>
    exact Inv_frame ih rfl rfl rfl rfl rfl (fun h => by
      show jsMapIdx _ s.exercises = []
      rw [h]
      rfl)
  | undoSet exIndex setIndex x =>
    exact Inv_frame ih rfl rfl rfl rfl rfl (fun h => by
      show jsMapIdx _ s.exercises = []
      rw [h]
      rfl)
  | setWeight exIndex setIndex w =>
    exact Inv_frame ih rfl rfl rfl rfl rfl (fun h => by
      show jsMapIdx _ s.exercises = []
      rw [h]
      rfl)
  | setReps exIndex setIndex r =>
    exact Inv_frame ih rfl rfl rfl rfl rfl (fun h => by
      show jsMapIdx _ s.exercises = []
      rw [h]
      rfl)
  | setLocation loc => exact Inv_frame ih rfl rfl rfl rfl rfl (fun h => h)
  | setNotes n => exact Inv_frame ih rfl rfl rfl rfl rfl (fun h => h)
  | setDate d => exact Inv_frame ih rfl rfl rfl rfl rfl (fun h => h)
  | setExerciseName i n =>
    exact Inv_frame ih rfl rfl rfl rfl rfl (fun h => by
      show jsMapIdx _ s.exercises = []
      rw [h]
      rfl)
  | setVariation i v =>
    exact Inv_frame ih rfl rfl rfl rfl rfl (fun h => by
      show jsMapIdx _ s.exercises = []
      rw [h]
      rfl)
  | murphStart lite wv k hty => exact Inv_frame_murph ih rfl hty rfl rfl rfl rfl
  | murphRound hty => exact Inv_frame_murph ih rfl hty rfl rfl rfl rfl
  | murphTime n hty => exact Inv_frame_murph ih rfl hty rfl rfl rfl rfl
  | murphSave e wv k hty => exact Inv_frame_murph ih rfl hty rfl rfl rfl rfl
  | runFill dt dist dur hty =>
    obtain ⟨h0, _, h2, _⟩ := ih
    obtain ⟨_, b, c, d⟩ := h2 hty
    refine ⟨by rw [show (runFillOp s dt dist dur).type = s.type from rfl]; exact h0, ?_, ?_, ?_⟩
    · intro hmu
      rw [show (runFillOp s dt dist dur).type = s.type from rfl, hty] at hmu
      exact absurd hmu (by decide)
    · intro _
      exact ⟨rfl, b, c, d⟩
    · intro hst
      rw [show (runFillOp s dt dist dur).type = s.type from rfl, hty] at hst
      rcases hst with he | he | he <;> exact absurd he (by decide)

lemma Inv_preserved_finalize (s : TrainingSession) (now : Int)
    (ih : Inv s) : Inv (completeSession s now) := by
  obtain ⟨h0, h1, h2, h3⟩ := ih
  unfold completeSession
  split_ifs with hcond
  · obtain ⟨hm, hrun⟩ := hcond
    have hst : isStrengthType s.type := by
      cases hty : s.type with
      | push => exact Or.inl rfl
      | pull => exact Or.inr (Or.inl rfl)
      | legs_core => exact Or.inr (Or.inr rfl)
      | murph => exact absurd hty hm
      | running_type => exact absurd hty hrun
      | dashboard => exact absurd hty h0
    obtain ⟨a, b, _⟩ := h3 hst
    exact ⟨h0, fun hmu => absurd hmu hm, fun hru => absurd hru hrun,
      fun _ => ⟨a, b, fun _ => rfl⟩⟩
  · push_neg at hcond
    refine ⟨h0, ?_, ?_, ?_⟩
    · intro hmu
      exact h1 hmu
    · intro hru
      exact h2 hru
    · intro hst
      rcases hst with he | he | he
      · exact absurd (hcond (by rw [he]; decide)) (by rw [he]; decide)
      · exact absurd (hcond (by rw [he]; decide)) (by rw [he]; decide)
      · exact absurd (hcond (by rw [he]; decide)) (by rw [he]; decide)

lemma Inv_preserved_editSave (s : TrainingSession) (ih : Inv s) :
    Inv (saveEditOp s) := by
  obtain ⟨h0, h1, h2, h3⟩ := ih
  unfold saveEditOp
  split_ifs with hcond
  · obtain ⟨hm, hrun⟩ := hcond
    obtain hst : isStrengthType s.type := by
      cases hty : s.type with
      | push => exact Or.inl rfl
      | pull => exact Or.inr (Or.inl rfl)
      | legs_core => exact Or.inr (Or.inr rfl)
      | murph => exact absurd hty hm
      | running_type => exact absurd hty hrun
      | dashboard => exact absurd hty h0
    obtain ⟨a, b, _⟩ := h3 hst
    exact ⟨h0, fun hmu => absurd hmu hm, fun hru => absurd hru hrun,
      fun _ => ⟨a, b, fun _ => rfl⟩⟩
  · exact ⟨h0, h1, h2, h3⟩

lemma Inv_of_reachable {s : TrainingSession} (h : Reachable s) : Inv s := by
  induction h with
  | createStrength t template sid exId setId now createdAt hty =>
    rcases hty with ⟨rfl, rfl⟩ | ⟨rfl, rfl⟩ | ⟨rfl, rfl⟩ <;>
      exact ⟨fun hq => TrainingType.noConfusion hq,
        fun hmu => TrainingType.noConfusion hmu,
        fun hru => TrainingType.noConfusion hru,
        fun _ => ⟨rfl, rfl, fun hc => Bool.noConfusion hc⟩⟩
  | createMurph sid now =>
    exact ⟨fun hq => TrainingType.noConfusion hq,
      fun _ => ⟨rfl, rfl, rfl, rfl⟩,
      fun hru => TrainingType.noConfusion hru,
      fun hst => by
        rcases hst with he | he | he <;> exact TrainingType.noConfusion he⟩
  | createRun sid now =>
    exact ⟨fun hq => TrainingType.noConfusion hq,
      fun hmu => TrainingType.noConfusion hmu,
      fun _ => ⟨rfl, rfl, rfl, rfl⟩,
      fun hst => by
        rcases hst with he | he | he <;> exact TrainingType.noConfusion he⟩
  | step hre hstep ih => exact Inv_preserved_step hstep ih
  | finalize now hre ih => exact Inv_preserved_finalize _ now ih
  | editSave hre ih => exact Inv_preserved_editSave _ ih

/-- Counterexample to C6: deleting every exercise of an active push session
(each deletion a UI operation that is auto-saved) yields a reachable
session in which none of the three disjuncts holds — its exercises are
empty, totals is absent, and murphData/runData are absent. -/
theorem C6_counterexample : Reachable c6Stripped ∧ ¬ claimC6 c6Stripped := by
  constructor
  · have h0 : Reachable c6Base :=
      Reachable.createStrength .push PUSH_TEMPLATE "cx" _ _ 0 "cc"
        (Or.inl ⟨rfl, rfl⟩)
    exact Reachable.step (Reachable.step (Reachable.step (Reachable.step
      (Reachable.step (Reachable.step (Reachable.step h0
        (Step.removeExercise _ 0)) (Step.removeExercise _ 0))
        (Step.removeExercise _ 0)) (Step.removeExercise _ 0))
        (Step.removeExercise _ 0)) (Step.removeExercise _ 0))
        (Step.removeExercise _ 0)
  · intro h
    have hx := h.1 (Or.inl rfl)
    have hex : ¬ exercisesOrTotals c6Stripped := by
      intro hz
      rcases hz with hz | hz
      · exact hz (by decide)
      · exact absurd hz (by decide)
    exact hex hx.1

/-- Claim C6 as amended: for every reachable session no two of the three
disjuncts hold; murph and run sessions carry exactly their keyed datum;
strength sessions carry neither murphData nor runData and satisfy the first
disjunct whenever completed — an active strength session whose exercises
have all been removed satisfies none of the three. -/
theorem C6_exclusivity_amended (s : TrainingSession) (h : Reachable s) :
    (¬ (exercisesOrTotals s ∧ s.murphData.isSome = true)) ∧
    (¬ (exercisesOrTotals s ∧ s.runData.isSome = true)) ∧
    (¬ (s.murphData.isSome = true ∧ s.runData.isSome = true)) ∧
    (s.type = .murph →
      s.murphData.isSome = true ∧ ¬ exercisesOrTotals s ∧ s.runData.isSome = false) ∧
    (s.type = .running_type →
      s.runData.isSome = true ∧ ¬ exercisesOrTotals s ∧ s.murphData.isSome = false) ∧
    (isStrengthType s.type →
      s.murphData = none ∧ s.runData = none ∧ (s.completed = true → exercisesOrTotals s)) := by
  obtain ⟨h0, h1, h2, h3⟩ := Inv_of_reachable h
  have notEoT : s.exercises = [] → s.totals = none → ¬ exercisesOrTotals s := by
    intro he ht hz
    rcases hz with hz | hz
    · exact hz he
    · rw [ht] at hz
      exact absurd hz (by decide)
  cases hty : s.type with
  | dashboard => exact absurd hty h0
  | murph =>
    obtain ⟨a, b, c, d⟩ := h1 hty
    have hne := notEoT b c
    refine ⟨fun hz => hne hz.1, fun hz => hne hz.1,
      fun hz => by rw [d] at hz; exact absurd hz.2 (by decide),
      fun _ => ⟨a, hne, by rw [d]; rfl⟩,
      fun hru => TrainingType.noConfusion hru,
      fun hst => ?_⟩
    rcases hst with he | he | he <;>
      exact TrainingType.noConfusion he
  | running_type =>
    obtain ⟨a, b, c, d⟩ := h2 hty
    have hne := notEoT b c
    refine ⟨fun hz => hne hz.1, fun hz => hne hz.1,
      fun hz => by rw [d] at hz; exact absurd hz.1 (by decide),
      fun hmu => TrainingType.noConfusion hmu,
      fun _ => ⟨a, hne, by rw [d]; rfl⟩,
      fun hst => ?_⟩
    rcases hst with he | he | he <;>
      exact TrainingType.noConfusion he
  | push =>
    obtain ⟨a, b, c⟩ := h3 (by rw [hty]; exact Or.inl rfl)
    exact ⟨fun hz => by rw [a] at hz; exact absurd hz.2 (by decide),
      fun hz => by rw [b] at hz; exact absurd hz.2 (by decide),
      fun hz => by rw [a] at hz; exact absurd hz.1 (by decide),
      fun hmu => TrainingType.noConfusion hmu,
      fun hru => TrainingType.noConfusion hru,
      fun _ => ⟨a, b, fun hcomp => Or.inr (c hcomp)⟩⟩
  | pull =>
    obtain ⟨a, b, c⟩ := h3 (by rw [hty]; exact Or.inr (Or.inl rfl))
    exact ⟨fun hz => by rw [a] at hz; exact absurd hz.2 (by decide),
      fun hz => by rw [b] at hz; exact absurd hz.2 (by decide),
      fun hz => by rw [a] at hz; exact absurd hz.1 (by decide),
      fun hmu => TrainingType.noConfusion hmu,
      fun hru => TrainingType.noConfusion hru,
      fun _ => ⟨a, b, fun hcomp => Or.inr (c hcomp)⟩⟩
  | legs_core =>
    obtain ⟨a, b, c⟩ := h3 (by rw [hty]; exact Or.inr (Or.inr rfl))
    exact ⟨fun hz => by rw [a] at hz; exact absurd hz.2 (by decide),
      fun hz => by rw [b] at hz; exact absurd hz.2 (by decide),
      fun hz => by rw [a] at hz; exact absurd hz.1 (by decide),
      fun hmu => TrainingType.noConfusion hmu,
      fun hru => TrainingType.noConfusion hru,
      fun _ => ⟨a, b, fun hcomp => Or.inr (c hcomp)⟩⟩

/-- Witness for the amended C6 at a freshly created murph session. -/
theorem C6_exclusivity_amended_witness :
    (¬ (exercisesOrTotals (createMurphSession "m" 0) ∧
        (createMurphSession "m" 0).murphData.isSome = true)) ∧
    (¬ (exercisesOrTotals (createMurphSession "m" 0) ∧
        (createMurphSession "m" 0).runData.isSome = true)) ∧
    (¬ ((createMurphSession "m" 0).murphData.isSome = true ∧
        (createMurphSession "m" 0).runData.isSome = true)) ∧
    ((createMurphSession "m" 0).type = .murph →
      (createMurphSession "m" 0).murphData.isSome = true ∧
      ¬ exercisesOrTotals (createMurphSession "m" 0) ∧
      (createMurphSession "m" 0).runData.isSome = false) ∧
    ((createMurphSession "m" 0).type = .running_type →
      (createMurphSession "m" 0).runData.isSome = true ∧
      ¬ exercisesOrTotals (createMurphSession "m" 0) ∧
      (createMurphSession "m" 0).murphData.isSome = false) ∧
    (isStrengthType (createMurphSession "m" 0).type →
      (createMurphSession "m" 0).murphData = none ∧
      (createMurphSession "m" 0).runData = none ∧
      ((createMurphSession "m" 0).completed = true →
        exercisesOrTotals (createMurphSession "m" 0))) :=
  C6_exclusivity_amended (createMurphSession "m" 0)
    (Reachable.createMurph "m" 0)

end TrainingTracker
